import Mathlib

/-!
Shallow embedding of the PeaceDatabase benchmark tooling
(`tools/db_bench.py`, `tools/bench_runner.py`,
`tools/prepare_news_for_upload.py`) and proofs about it.

Python floats are modelled as rationals, Python ints as `Int`
(or `Nat` where the source value is a loop index), raising code as
`Except String`.  The seeded pseudo-random source `random.Random(seed)`
is modelled by an explicit stream of draws: Python derives the stream
deterministically from the seed, so two calls with the same seed see
the same stream.
-/

namespace DbBench

/-- The per-iteration draws taken from `random.Random(seed)` inside
`generate_documents`: `rnd.random() * 100.0`, `rnd.randint(0, 1000)`,
`rnd.random()` (floats as rationals). -/
structure RandDraws where
  score : ℚ
  nestedX : ℕ
  nestedY : ℚ
  deriving DecidableEq, Repr

/-- The `data` payload built for document `i` in `generate_documents`. -/
structure DocData where
  name : String
  age : ℕ
  score : ℚ
  active : Bool
  tags : List String
  nestedX : ℕ
  nestedY : ℚ
  deriving DecidableEq, Repr

/-- A document as produced by `generate_documents`: `{"id": ..., "data": ...}`. -/
structure Doc where
  id : String
  data : DocData
  deriving DecidableEq, Repr

/-- Python format `f"bench-{i:06d}"` pads the decimal digits of `i`
with leading zeros to a minimum width of 6. -/
def pad06 (i : ℕ) : String :=
  let s := toString i
  String.mk (List.replicate (6 - s.length) '0') ++ s

/-- `generate_documents(n, seed)` from `tools/db_bench.py`.  `n` is a
Python int (possibly negative: `range(n)` is then empty, handled by
`Int.toNat`); `rng i` gives the draws consumed at iteration `i` of the
stream determined by the seed. -/
def generate_documents (n : ℤ) (rng : ℕ → RandDraws) : List Doc :=
  (List.range n.toNat).map fun i =>
    { id := "bench-" ++ pad06 i
      data :=
        { name := "user_" ++ toString i
          age := 18 + (i % 60)
          score := (rng i).score
          active := i % 3 = 0
          tags := ["bench", "synthetic", if i % 2 = 0 then "even" else "odd"]
          nestedX := (rng i).nestedX
          nestedY := (rng i).nestedY } }

end DbBench

namespace BenchRunner

/-- Lexicographic comparison of character lists by Unicode code point,
the order Python `sorted` uses on strings. -/
def lexLe : List Char → List Char → Bool
  | [], _ => true
  | _ :: _, [] => false
  | a :: as, b :: bs =>
    if a.toNat < b.toNat then true
    else if b.toNat < a.toNat then false
    else lexLe as bs

/-- Alphabetical (code-point) order on strings, as used by Python
`sorted(tail)` in `_aggregate_results`. -/
def alphaLe (a b : String) : Prop := lexLe a.data b.data = true

instance : DecidableRel alphaLe := fun a b =>
  inferInstanceAs (Decidable (lexLe a.data b.data = true))

theorem lexLe_total : ∀ a b : List Char, lexLe a b = true ∨ lexLe b a = true := by
  intro a
  induction a with
  | nil => intro b; left; rfl
  | cons x xs ih =>
    intro b
    match b with
    | [] => right; rfl
    | y :: ys =>
      simp only [lexLe]
      by_cases hxy : x.toNat < y.toNat
      · simp [hxy]
      · by_cases hyx : y.toNat < x.toNat
        · simp [hxy, hyx]
        · simpa [hxy, hyx] using ih ys

theorem lexLe_trans : ∀ a b c : List Char,
    lexLe a b = true → lexLe b c = true → lexLe a c = true := by
  intro a
  induction a with
  | nil => intro b c _ _; rfl
  | cons x xs ih =>
    intro b c h1 h2
    match b, c with
    | [], _ => simp [lexLe] at h1
    | _ :: _, [] => simp [lexLe] at h2
    | y :: ys, z :: zs =>
      simp only [lexLe] at h1 h2 ⊢
      by_cases hxy : x.toNat < y.toNat
      · by_cases hyz : y.toNat < z.toNat
        · simp [show x.toNat < z.toNat by omega]
        · by_cases hzy : z.toNat < y.toNat
          · simp [hyz, hzy] at h2
          · simp [show x.toNat < z.toNat by omega]
      · by_cases hyx : y.toNat < x.toNat
        · simp [hxy, hyx] at h1
        · by_cases hyz : y.toNat < z.toNat
          · simp [show x.toNat < z.toNat by omega]
          · by_cases hzy : z.toNat < y.toNat
            · simp [hyz, hzy] at h2
            · have hxz : ¬ x.toNat < z.toNat := by omega
              have hzx : ¬ z.toNat < x.toNat := by omega
              simp only [if_neg hxy, if_neg hyx] at h1
              simp only [if_neg hyz, if_neg hzy] at h2
              simp only [if_neg hxz, if_neg hzx]
              exact ih ys zs h1 h2

instance : IsTotal String alphaLe := ⟨fun a b => lexLe_total a.data b.data⟩

instance : IsTrans String alphaLe :=
  ⟨fun a b c => lexLe_trans a.data b.data c.data⟩

/-- The canonical preference list hard-coded in `_aggregate_results`:
`preferred = ["json", "binary", "protobuf"]`. -/
def preferredFormats : List String := ["json", "binary", "protobuf"]

/-- The format-ordering step of `_aggregate_results`, parameterised by
the preference list:
`tail = [f for f in fmts_detected if f not in preferred]` and
`formats_sorted = [f for f in preferred if f in fmts_detected] + sorted(tail)`
(Python `sorted` modelled by a stable sort under `alphaLe`). -/
def sortFormats (preferred fmts_detected : List String) : List String :=
  preferred.filter (fun f => decide (f ∈ fmts_detected)) ++
    List.insertionSort alphaLe
      (fmts_detected.filter (fun f => decide (f ∉ preferred)))

/-- `statistics.fmean vals`: arithmetic mean (floats as rationals). -/
def fmean (vals : List ℚ) : ℚ := vals.sum / vals.length

/-- The population variance, i.e. the square of `statistics.pstdev vals`:
mean squared deviation, dividing by the sample count. -/
def pvariance (vals : List ℚ) : ℚ :=
  (vals.map (fun v => (v - fmean vals) ^ 2)).sum / vals.length

/-- `statistics.pstdev vals = s`: the population standard deviation is the
unique nonnegative root of the population variance. -/
def pstdevIs (vals : List ℚ) (s : ℚ) : Prop := 0 ≤ s ∧ s ^ 2 = pvariance vals

/-- The `{"mean": ..., "std": ...}` record built by `mstd` in
`_aggregate_results`.  The standard deviation is carried as its square
`stdSq` (exact rational); the stored float is its nonnegative root. -/
structure MeanStd where
  mean : ℚ
  stdSq : ℚ
  deriving DecidableEq, Repr

/-- `mstd(vals)` from `_aggregate_results`:
empty bucket gives mean 0, std 0; a single sample gives that sample and
std 0; otherwise `fmean` and `pstdev` (carried squared). -/
def mstd (vals : List ℚ) : MeanStd :=
  if vals = [] then ⟨0, 0⟩
  else if vals.length = 1 then ⟨vals.headI, 0⟩
  else ⟨fmean vals, pvariance vals⟩

/-- Python `str.lower()`, modelled characterwise. -/
def pyLower (s : String) : String := String.mk (s.data.map Char.toLower)

/-- One row of the `results` array consumed by `_aggregate_results`, with
the fields the function reads; each is optional since the code probes with
`r.get` or `in`.  `format` is the raw string value, `none` when absent. -/
structure ResultRow where
  format : Option String
  n : ℤ
  serializeMs : Option ℚ
  deserializeMs : Option ℚ
  avgBytesPerDoc : Option ℚ
  deriving DecidableEq, Repr

/-- The row format key: `fmt = str(r.get("format", "")).lower()`. -/
def rowFmt (r : ResultRow) : String := pyLower (r.format.getD "")

/-- The three per-(format, n) sample lists built by `_aggregate_results`. -/
structure Bucket where
  serializeMs : List ℚ
  deserializeMs : List ℚ
  avgBytesPerDoc : List ℚ
  deriving DecidableEq, Repr

def Bucket.empty : Bucket := ⟨[], [], []⟩

/-- The three conditional appends of the loop body, e.g.
`if "serializeMs" in r: d["serializeMs"].append(float(r["serializeMs"]))`. -/
def Bucket.push (b : Bucket) (r : ResultRow) : Bucket where
  serializeMs :=
    b.serializeMs ++ (match r.serializeMs with | some v => [v] | none => [])
  deserializeMs :=
    b.deserializeMs ++ (match r.deserializeMs with | some v => [v] | none => [])
  avgBytesPerDoc :=
    b.avgBytesPerDoc ++ (match r.avgBytesPerDoc with | some v => [v] | none => [])

/-- Python `dict.setdefault(k, d)` followed by an in-place update of the
entry at `k`, on an association list. -/
def updateAssoc {α β : Type} [DecidableEq α] (k : α) (d : β) (f : β → β) :
    List (α × β) → List (α × β)
  | [] => [(k, f d)]
  | (k1, v) :: rest =>
    if k1 = k then (k1, f v) :: rest else (k1, v) :: updateAssoc k d f rest

/-- The loop state of `_aggregate_results`: the `ns` and `fmts` sets and
the nested `buckets` dict, keyed by format then by `n`. -/
structure AggState where
  ns : Finset ℤ
  fmts : Finset String
  buckets : List (String × List (ℤ × Bucket))
  deriving DecidableEq

def aggInit : AggState := ⟨∅, ∅, []⟩

/-- One iteration of the `for r in results` loop of `_aggregate_results`:
skip the row when its lowered format string is empty, otherwise record the
scale and the format and append the row metrics to its (format, n)
bucket. -/
def aggStep (s : AggState) (r : ResultRow) : AggState :=
  let fmt := rowFmt r
  let n := r.n
  if fmt = "" then s
  else
    { ns := insert n s.ns
      fmts := insert fmt s.fmts
      buckets := updateAssoc fmt []
        (fun byN => updateAssoc n Bucket.empty (fun b => b.push r) byN)
        s.buckets }

/-- The triple returned by `_aggregate_results`. -/
structure AggOut where
  scales_sorted : List ℤ
  formats_sorted : List String
  agg : List (String × List (ℤ × (MeanStd × MeanStd × MeanStd)))
  deriving DecidableEq

/-- `_aggregate_results(results)` from `tools/bench_runner.py`: fold the
rows, apply `mstd` to every bucket metric, sort the scales ascending and
the formats by the preference rule.  Python iterates the `fmts` set in an
unspecified order; the `sortFormats` output does not depend on that
order, and here the set elements are passed sorted. -/
def aggregate_results (results : List ResultRow) : AggOut :=
  let s := results.foldl aggStep aggInit
  { scales_sorted := s.ns.sort (· ≤ ·)
    formats_sorted := sortFormats preferredFormats (s.fmts.sort (· ≤ ·))
    agg := s.buckets.map fun p =>
      (p.1, p.2.map fun q =>
        (q.1, (mstd q.2.serializeMs, mstd q.2.deserializeMs,
          mstd q.2.avgBytesPerDoc))) }

end BenchRunner

namespace DbBench

/-- `response.raise_for_status()` of the requests library: raises an
`HTTPError` for status codes 400 to 599, otherwise returns normally. -/
def raise_for_status (status : ℕ) : Except String Unit :=
  if 400 ≤ status ∧ status < 600 then .error ("HTTP " ++ toString status)
  else .ok ()

/-- The `EngineResult` dataclass of `tools/db_bench.py`
(floats as rationals). -/
structure EngineResult where
  engine : String
  n : ℕ
  insert_ms : ℚ
  read_ms : ℚ
  deriving DecidableEq, Repr

end DbBench

namespace DbBench.PeaceDbClient

/-- `PeaceDbClient.create_db`: `PUT /v1/db/{db}` followed by an
unconditional `raise_for_status`; the response is modelled by its
status code. -/
def create_db (status : ℕ) : Except String Unit :=
  DbBench.raise_for_status status

/-- `PeaceDbClient.bulk_read`: one GET per id, each followed by
`raise_for_status`; `resp` gives the status the server returns for an id
(200 when the document is present, 404 on a miss). -/
def bulk_read (resp : String → ℕ) : List String → Except String Unit
  | [] => .ok ()
  | i :: rest => do
    let _ ← DbBench.raise_for_status (resp i)
    bulk_read resp rest

end DbBench.PeaceDbClient

namespace DbBench.MongoClientWrapper

/-- `MongoClientWrapper.bulk_read`: `find_one({"id": doc_id})` per id with
the result bound to `_` and discarded; `store` gives the lookup result.
The loop never fails and never inspects the result. -/
def bulk_read (store : String → Option DbBench.Doc) :
    List String → Except String Unit
  | [] => .ok ()
  | i :: rest =>
    let _ := store i
    bulk_read store rest

end DbBench.MongoClientWrapper

namespace DbBench.CouchDbClient

/-- `CouchDbClient.create_db`: `PUT /{db}`, then `raise_for_status` only
when the status is not one of 201, 202, 412. -/
def create_db (status : ℕ) : Except String Unit :=
  if status ∉ ([201, 202, 412] : List ℕ) then DbBench.raise_for_status status
  else .ok ()

/-- `CouchDbClient.bulk_read`: one GET per id; statuses 200 and 404 are
both tolerated, any other status goes through `raise_for_status`. -/
def bulk_read (resp : String → ℕ) : List String → Except String Unit
  | [] => .ok ()
  | i :: rest =>
    if resp i ∉ ([200, 404] : List ℕ) then do
      let _ ← DbBench.raise_for_status (resp i)
      bulk_read resp rest
    else bulk_read resp rest

end DbBench.CouchDbClient

namespace DbBench

/-- The outcomes of the adapter calls one engine makes inside
`run_engine_bench`, together with the wall-clock durations of the two
timed phases: `prepareRes` models the `create_db()` / `prepare()` call,
`insertRes` the `bulk_insert(docs)` call and `readRes` the
`bulk_read(ids)` call; any of them may raise. -/
structure AdapterRun where
  prepareRes : Except String Unit
  insertRes : Except String Unit
  readRes : Except String Unit
  insertMs : ℚ
  readMs : ℚ

/-- `run_engine_bench(engine, docs, ...)` from `tools/db_bench.py`:
dispatch on the engine name; each branch runs prepare/create, the timed
insert and the timed read and returns an `EngineResult`; an unknown
engine name raises `ValueError`.  A failure of any phase propagates out
(the `do` sequencing models the uncaught exception). -/
def run_engine_bench (engine : String) (ndocs : ℕ)
    (peacedb mongo couch : AdapterRun) : Except String EngineResult :=
  if engine = "peacedb" then do
    let _ ← peacedb.prepareRes
    let _ ← peacedb.insertRes
    let _ ← peacedb.readRes
    pure ⟨"peacedb", ndocs, peacedb.insertMs, peacedb.readMs⟩
  else if engine = "mongo" then do
    let _ ← mongo.prepareRes
    let _ ← mongo.insertRes
    let _ ← mongo.readRes
    pure ⟨"mongo", ndocs, mongo.insertMs, mongo.readMs⟩
  else if engine = "couchdb" then do
    let _ ← couch.prepareRes
    let _ ← couch.insertRes
    let _ ← couch.readRes
    pure ⟨"couchdb", ndocs, couch.insertMs, couch.readMs⟩
  else .error ("Unknown engine: " ++ engine)

/-- The engine loop of `main`: run each engine in turn, appending to
`all_results`; there is no try/except around `run_engine_bench`, so a
raised error propagates as the result of the whole loop. -/
def sweepGo (ndocs : ℕ) (peacedb mongo couch : AdapterRun) :
    List String → List EngineResult → Except String (List EngineResult)
  | [], acc => .ok acc
  | eng :: rest, acc =>
    match run_engine_bench eng ndocs peacedb mongo couch with
    | .error e => .error e
    | .ok res => sweepGo ndocs peacedb mongo couch rest (acc ++ [res])

/-- `main` runs the loop over `engines = ["peacedb", "mongo", "couchdb"]`
starting from an empty `all_results`. -/
def sweepEngines (engines : List String) (ndocs : ℕ)
    (peacedb mongo couch : AdapterRun) : Except String (List EngineResult) :=
  sweepGo ndocs peacedb mongo couch engines []

/-- The engine list hard-coded in `main`. -/
def mainEngines : List String := ["peacedb", "mongo", "couchdb"]

/-- An adapter whose three phases all succeed. -/
def okRun : AdapterRun := ⟨.ok (), .ok (), .ok (), 1, 1⟩

end DbBench

namespace PrepareNews

/-- Python truthiness of the `limit` argument of `write_ndjson`
(`None` and `0` are falsy). -/
def limitTruthy : Option ℤ → Bool
  | none => false
  | some k => k ≠ 0

/-- The loop of `write_ndjson(records, out_path, limit)` from
`tools/prepare_news_for_upload.py`: write `to_document(raw)` for each
record, increment `count`, and break once `limit and count >= limit`.
Returns the sequence written and the final `count`; `toDoc` abstracts
`to_document`. -/
def writeLoop {α β : Type} (toDoc : α → β) (limit : Option ℤ) :
    List α → ℕ → List β × ℕ
  | [], count => ([], count)
  | raw :: rest, count =>
    let doc := toDoc raw
    let count1 := count + 1
    if limitTruthy limit ∧ limit.getD 0 ≤ (count1 : ℤ) then ([doc], count1)
    else
      let r := writeLoop toDoc limit rest count1
      (doc :: r.1, r.2)

/-- `write_ndjson` starts the loop with `count = 0` and returns the final
count. -/
def write_ndjson {α β : Type} (toDoc : α → β) (records : List α)
    (limit : Option ℤ) : List β × ℕ :=
  writeLoop toDoc limit records 0

end PrepareNews

/-- C5: for every `size ≥ 0` and every seed stream, `generate_documents`
returns exactly `size` documents; in particular size 0 yields the empty
sequence, not an error. -/
theorem generate_documents_length (n : ℤ) (rng : ℕ → DbBench.RandDraws)
    (h : 0 ≤ n) :
    ((DbBench.generate_documents n rng).length : ℤ) = n ∧
      DbBench.generate_documents 0 rng = [] := by
  constructor
  · simp [DbBench.generate_documents, Int.toNat_of_nonneg h]
  · simp [DbBench.generate_documents]

/-- Witness for `generate_documents_length` at `n = 3`. -/
theorem generate_documents_length_witness :
    ((DbBench.generate_documents 3 (fun _ => ⟨0, 0, 0⟩)).length : ℤ) = 3 :=
  (generate_documents_length 3 (fun _ => ⟨0, 0, 0⟩) (by decide)).1

/-- C3 counterexample: `generate_documents` called with negative size
returns an empty sequence of documents (the claimed InvalidArgument
failure does not happen: the function is total and returns normally). -/
theorem generate_documents_neg_counterexample :
    DbBench.generate_documents (-1) (fun _ => ⟨0, 0, 0⟩) = [] := by
  simp [DbBench.generate_documents]

/-- C3 amended: for every negative size the function returns the empty
sequence, exactly as for size 0; no error is raised. -/
theorem generate_documents_neg (n : ℤ) (rng : ℕ → DbBench.RandDraws)
    (h : n < 0) : DbBench.generate_documents n rng = [] := by
  have : n.toNat = 0 := Int.toNat_of_nonpos (le_of_lt h)
  simp [DbBench.generate_documents, this]

/-- Witness for `generate_documents_neg` at `n = -5`. -/
theorem generate_documents_neg_witness :
    DbBench.generate_documents (-5) (fun _ => ⟨1, 2, 3⟩) = [] :=
  generate_documents_neg (-5) (fun _ => ⟨1, 2, 3⟩) (by decide)

/-- C4: generation is deterministic (same size and same seed stream give
identical output), and for every index `i < size` the generated document
has id `"bench-"` followed by `i` zero-padded to six digits and age
`18 + (i % 60)`. -/
theorem generate_documents_det_fields (n : ℤ) (rng : ℕ → DbBench.RandDraws)
    (i : ℕ) (h : i < (DbBench.generate_documents n rng).length) :
    DbBench.generate_documents n rng = DbBench.generate_documents n rng ∧
      ((DbBench.generate_documents n rng)[i]).id = "bench-" ++ DbBench.pad06 i ∧
      ((DbBench.generate_documents n rng)[i]).data.age = 18 + (i % 60) := by
  refine ⟨rfl, ?_, ?_⟩ <;>
    simp [DbBench.generate_documents]

/-- C9: a result row whose format field is missing or empty is skipped by
the aggregator: it leaves the whole loop state (scale set, format set and
every bucket) unchanged, and the aggregated output — sorted scales, sorted
formats, and every computed mean and standard deviation — is the same as
if the row were absent. -/
theorem aggregate_skips_empty_format (pre post : List BenchRunner.ResultRow)
    (r : BenchRunner.ResultRow) (h : BenchRunner.rowFmt r = "") :
    (∀ s : BenchRunner.AggState,
        (pre ++ r :: post).foldl BenchRunner.aggStep s
          = (pre ++ post).foldl BenchRunner.aggStep s) ∧
      BenchRunner.aggregate_results (pre ++ r :: post)
        = BenchRunner.aggregate_results (pre ++ post) := by
  have hstep : ∀ s : BenchRunner.AggState, BenchRunner.aggStep s r = s := by
    intro s; simp [BenchRunner.aggStep, h]
  have hfold : ∀ s : BenchRunner.AggState,
      (pre ++ r :: post).foldl BenchRunner.aggStep s
        = (pre ++ post).foldl BenchRunner.aggStep s := by
    intro s
    simp [List.foldl_append, List.foldl_cons, hstep]
  exact ⟨hfold, by simp [BenchRunner.aggregate_results, hfold]⟩

/-- Witness for `aggregate_skips_empty_format`: a format-less row after a
json row changes nothing in the aggregate. -/
theorem aggregate_skips_empty_format_witness :
    BenchRunner.aggregate_results
        [⟨some "json", 10, some 5, none, none⟩, ⟨none, 7, some 3, none, none⟩]
      = BenchRunner.aggregate_results [⟨some "json", 10, some 5, none, none⟩] := by
  have h := (aggregate_skips_empty_format
      [⟨some "json", 10, some 5, none, none⟩] []
      ⟨none, 7, some 3, none, none⟩ (by decide)).2
  simpa using h

/-- C2: `mstd` gives, for a single-sample bucket, that sample as mean and
standard deviation 0; on `[10, 12]` mean 11 and population standard
deviation 1; and for every non-empty bucket the arithmetic mean
(mean times count equals the sum) and the population variance (dividing
the summed squared deviations by the count, not count minus 1). -/
theorem mstd_mean_pstdev :
    (∀ v : ℚ, BenchRunner.mstd [v] = ⟨v, 0⟩) ∧
      ((BenchRunner.mstd [10, 12]).mean = 11 ∧
        BenchRunner.pstdevIs [10, 12] 1) ∧
      ∀ vals : List ℚ, vals ≠ [] →
        (BenchRunner.mstd vals).mean * vals.length = vals.sum ∧
          (BenchRunner.mstd vals).stdSq * vals.length
            = (vals.map (fun v => (v - BenchRunner.fmean vals) ^ 2)).sum := by
  refine ⟨?_, ⟨?_, ⟨by norm_num, ?_⟩⟩, ?_⟩
  · intro v
    simp [BenchRunner.mstd]
  · rw [BenchRunner.mstd, if_neg (by simp), if_neg (by simp)]
    norm_num [BenchRunner.fmean]
  · norm_num [BenchRunner.pvariance, BenchRunner.fmean]
  · intro vals hne
    by_cases h1 : vals.length = 1
    · obtain ⟨a, rfl⟩ := List.length_eq_one.mp h1
      simp [BenchRunner.mstd, BenchRunner.fmean]
    · have hlen : vals.length ≠ 0 := by
        simpa [List.length_eq_zero] using hne
      have hlenQ : (vals.length : ℚ) ≠ 0 := Nat.cast_ne_zero.mpr hlen
      rw [BenchRunner.mstd, if_neg hne, if_neg h1]
      exact ⟨div_mul_cancel₀ _ hlenQ, div_mul_cancel₀ _ hlenQ⟩

/-- Witness for `mstd_mean_pstdev` at the bucket `[10, 12]`. -/
theorem mstd_mean_pstdev_witness :
    (BenchRunner.mstd [(10 : ℚ), 12]).mean * (([(10 : ℚ), 12] : List ℚ).length : ℚ)
        = ([(10 : ℚ), 12] : List ℚ).sum ∧
      (BenchRunner.mstd [(10 : ℚ), 12]).stdSq * (([(10 : ℚ), 12] : List ℚ).length : ℚ)
        = (([(10 : ℚ), 12] : List ℚ).map
            (fun v => (v - BenchRunner.fmean [(10 : ℚ), 12]) ^ 2)).sum :=
  mstd_mean_pstdev.2.2 [10, 12] (by simp)

/-- C6: the report format ordering is exactly: formats of the preference
list that are present, in preference-list order, followed by every
remaining format in alphabetical order; membership is preserved (ordering
never adds or drops a format); and on the spec scenario with preference
list `[primary, generic]` and an unlisted `custom` present, the order is
`[primary, generic, custom]`. -/
theorem sortFormats_spec :
    (∀ preferred fmts f,
        f ∈ BenchRunner.sortFormats preferred fmts ↔ f ∈ fmts) ∧
      (∀ preferred fmts, ∃ front back,
        BenchRunner.sortFormats preferred fmts = front ++ back ∧
          front.Sublist preferred ∧
          (∀ f ∈ preferred, f ∈ fmts → f ∈ front) ∧
          (∀ f ∈ back, f ∉ preferred) ∧
          (∀ f ∈ fmts, f ∉ preferred → f ∈ back) ∧
          back.Sorted BenchRunner.alphaLe) ∧
      BenchRunner.sortFormats ["primary", "generic"]
        ["custom", "generic", "primary"] = ["primary", "generic", "custom"] := by
  refine ⟨?_, ?_, by decide⟩
  · intro preferred fmts f
    constructor
    · intro hf
      rcases List.mem_append.mp hf with h | h
      · exact of_decide_eq_true (List.mem_filter.mp h).2
      · have hm := ((List.perm_insertionSort BenchRunner.alphaLe
            (fmts.filter (fun g => decide (g ∉ preferred)))).mem_iff).mp h
        exact (List.mem_filter.mp hm).1
    · intro hf
      by_cases hp : f ∈ preferred
      · exact List.mem_append.mpr
          (Or.inl (List.mem_filter.mpr ⟨hp, by simpa using hf⟩))
      · refine List.mem_append.mpr (Or.inr ?_)
        rw [(List.perm_insertionSort _ _).mem_iff]
        exact List.mem_filter.mpr ⟨hf, by simpa using hp⟩
  · intro preferred fmts
    refine ⟨_, _, rfl, List.filter_sublist _, ?_, ?_, ?_,
      List.sorted_insertionSort _ _⟩
    · intro f hfp hff
      simp [List.mem_filter, hfp, hff]
    · intro f hf
      have hm := (List.perm_insertionSort BenchRunner.alphaLe _).mem_iff.mp hf
      rcases List.mem_filter.mp hm with ⟨-, h2⟩
      simpa using h2
    · intro f hff hfp
      rw [(List.perm_insertionSort _ _).mem_iff]
      simp [List.mem_filter, hff, hfp]

/-- Witness for `sortFormats_spec` on the set of formats
`{protobuf, json, xml, avro}` with the preference list of the code:
membership in the sorted report equals membership in the detected set. -/
theorem sortFormats_spec_witness :
    "xml" ∈ BenchRunner.sortFormats BenchRunner.preferredFormats
        ["protobuf", "json", "xml", "avro"] ↔
      "xml" ∈ (["protobuf", "json", "xml", "avro"] : List String) :=
  sortFormats_spec.1 BenchRunner.preferredFormats
    ["protobuf", "json", "xml", "avro"] "xml"

/-- Witness for `generate_documents_det_fields` at size 3, index 1:
the id is `bench-000001` and the age is 19. -/
theorem generate_documents_det_fields_witness :
    ((DbBench.generate_documents 3 (fun _ => ⟨0, 0, 0⟩)).get ⟨1, by decide⟩).id
        = "bench-000001" ∧
      ((DbBench.generate_documents 3 (fun _ => ⟨0, 0, 0⟩)).get ⟨1, by decide⟩).data.age
        = 19 := by
  have h := (generate_documents_det_fields 3 (fun _ => ⟨0, 0, 0⟩) 1 (by decide)).2
  simpa [List.get_eq_getElem, DbBench.pad06] using h

/-- C1 counterexample: with a peacedb adapter whose bulk insert raises and
every other adapter healthy, the engine loop of `main` aborts with that
error and produces no results at all: the failure is not confined to the
failing (engine, scale) combination, and the remaining engines never
run. -/
theorem sweep_aborts_counterexample :
    DbBench.sweepEngines DbBench.mainEngines 1000
        ⟨.ok (), .error "insert failed", .ok (), 1, 1⟩
        DbBench.okRun DbBench.okRun
      = .error "insert failed" := rfl

/-- C1 amended: if every engine before `eng` in the sweep order succeeds
and some phase of the run for `eng` fails, the uncaught error propagates
out of the engine loop: the sweep returns that error, with no Failed
marking, no exclusion from aggregation, and no results for the remaining
engines. -/
theorem sweep_aborts_on_engine_error (pre post : List String) (eng : String)
    (ndocs : ℕ) (p m c : DbBench.AdapterRun) (e : String)
    (hpre : ∀ g ∈ pre, ∃ res, DbBench.run_engine_bench g ndocs p m c = .ok res)
    (heng : DbBench.run_engine_bench eng ndocs p m c = .error e) :
    DbBench.sweepEngines (pre ++ eng :: post) ndocs p m c = .error e := by
  suffices h : ∀ (l : List String) (acc : List DbBench.EngineResult),
      (∀ g ∈ l, ∃ res, DbBench.run_engine_bench g ndocs p m c = .ok res) →
      DbBench.sweepGo ndocs p m c (l ++ eng :: post) acc = .error e by
    exact h pre [] hpre
  intro l
  induction l with
  | nil =>
    intro acc _
    simp [DbBench.sweepGo, heng]
  | cons g gs ih =>
    intro acc hall
    obtain ⟨res, hres⟩ := hall g (by simp)
    simp only [List.cons_append, DbBench.sweepGo, hres]
    exact ih _ (fun x hx => hall x (by simp [hx]))

/-- Witness for `sweep_aborts_on_engine_error`: peacedb succeeds, the
mongo insert raises, and the sweep result is that error. -/
theorem sweep_aborts_on_engine_error_witness :
    DbBench.sweepEngines (["peacedb"] ++ "mongo" :: ["couchdb"]) 1000
        DbBench.okRun ⟨.ok (), .error "boom", .ok (), 1, 1⟩ DbBench.okRun
      = .error "boom" :=
  sweep_aborts_on_engine_error ["peacedb"] ["couchdb"] "mongo" 1000
    DbBench.okRun ⟨.ok (), .error "boom", .ok (), 1, 1⟩ DbBench.okRun "boom"
    (by
      intro g hg
      rw [List.mem_singleton] at hg
      subst hg
      exact ⟨_, rfl⟩)
    rfl

/-- C7 counterexample: a read miss is not surfaced as a distinct per-id
data-integrity failure.  The Mongo adapter silently succeeds on a bulk
read over ids none of which exist, and the PeaceDb adapter turns the
first missing id (HTTP 404) into an error that aborts the whole
`bulk_read` call, including the id that does exist. -/
theorem bulk_read_miss_counterexample :
    DbBench.MongoClientWrapper.bulk_read (fun _ => none)
        ["bench-000000", "bench-000001"] = .ok () ∧
      DbBench.PeaceDbClient.bulk_read
        (fun i => if i = "bench-000000" then 404 else 200)
        ["bench-000000", "bench-000001"] = .error "HTTP 404" :=
  ⟨rfl, rfl⟩

/-- C7 amended: read misses are handled per adapter and never surfaced as
a distinct data-integrity failure: the Mongo adapter ignores every miss
(its bulk read succeeds whatever the store contents), the CouchDb adapter
tolerates each 404 silently, and the PeaceDb adapter raises on the first
404, failing the whole call. -/
theorem bulk_read_miss_behaviour :
    (∀ (store : String → Option DbBench.Doc) (ids : List String),
        DbBench.MongoClientWrapper.bulk_read store ids = .ok ()) ∧
      (∀ (resp : String → ℕ) (ids : List String),
        (∀ i ∈ ids, resp i = 200 ∨ resp i = 404) →
        DbBench.CouchDbClient.bulk_read resp ids = .ok ()) ∧
      (∀ (resp : String → ℕ) (pre : List String) (i : String)
        (post : List String),
        (∀ j ∈ pre, resp j = 200) → resp i = 404 →
        DbBench.PeaceDbClient.bulk_read resp (pre ++ i :: post)
          = .error "HTTP 404") := by
  refine ⟨?_, ?_, ?_⟩
  · intro store ids
    induction ids with
    | nil => rfl
    | cons i rest ih =>
      simp only [DbBench.MongoClientWrapper.bulk_read]
      exact ih
  · intro resp ids
    induction ids with
    | nil => intro _; rfl
    | cons i rest ih =>
      intro hall
      have hi := hall i (by simp)
      have hcond : ¬ (resp i ∉ ([200, 404] : List ℕ)) := by
        rcases hi with h | h <;> simp [h]
      simp only [DbBench.CouchDbClient.bulk_read, if_neg hcond]
      exact ih (fun j hj => hall j (by simp [hj]))
  · intro resp pre i post
    induction pre with
    | nil =>
      intro _ h404
      simp only [List.nil_append, DbBench.PeaceDbClient.bulk_read, h404]
      rfl
    | cons j js ih =>
      intro hpre h404
      have hj := hpre j (by simp)
      simp only [List.cons_append, DbBench.PeaceDbClient.bulk_read, hj]
      have hrec := ih (fun x hx => hpre x (by simp [hx])) h404
      simpa [DbBench.raise_for_status] using hrec

/-- Witness for `bulk_read_miss_behaviour`: a CouchDb bulk read over a
present id and a missing id succeeds, and a PeaceDb bulk read whose
second id is missing fails whole with HTTP 404. -/
theorem bulk_read_miss_behaviour_witness :
    DbBench.CouchDbClient.bulk_read
        (fun i => if i = "bench-000000" then 200 else 404)
        ["bench-000000", "bench-000001"] = .ok () ∧
      DbBench.PeaceDbClient.bulk_read
        (fun i => if i = "bench-000001" then 404 else 200)
        ["bench-000000", "bench-000001", "bench-000002"]
        = .error "HTTP 404" := by
  constructor
  · exact bulk_read_miss_behaviour.2.1
      (fun i => if i = "bench-000000" then 200 else 404)
      ["bench-000000", "bench-000001"]
      (by intro i hi; fin_cases hi <;> simp)
  · exact bulk_read_miss_behaviour.2.2
      (fun i => if i = "bench-000001" then 404 else 200)
      ["bench-000000"] "bench-000001" ["bench-000002"]
      (by intro j hj; fin_cases hj; simp)
      (by simp)

/-- C8 counterexample: `PeaceDbClient.create_db`, the client of
`PUT /v1/db/{db}`, raises on status 412 instead of returning normally:
its unconditional `raise_for_status` treats 412 as an HTTP error. -/
theorem create_db_412_counterexample :
    DbBench.PeaceDbClient.create_db 412 = .error "HTTP 412" := rfl

/-- C8 amended: the CouchDb client treats 201, 202 and 412 all as success
for its `PUT /{db}` database create, while the PeaceDb client
(`PUT /v1/db/{db}`) returns normally on 201 and 202 but raises on 412. -/
theorem create_db_status_handling :
    DbBench.CouchDbClient.create_db 201 = .ok () ∧
      DbBench.CouchDbClient.create_db 202 = .ok () ∧
      DbBench.CouchDbClient.create_db 412 = .ok () ∧
      DbBench.PeaceDbClient.create_db 201 = .ok () ∧
      DbBench.PeaceDbClient.create_db 202 = .ok () ∧
      DbBench.PeaceDbClient.create_db 412 = .error "HTTP 412" :=
  ⟨rfl, rfl, rfl, rfl, rfl, rfl⟩

/-- Helper: with a falsy limit the write loop never breaks: it writes
every record and adds the record count to the running counter. -/
theorem writeLoop_falsy {α β : Type} (toDoc : α → β) (limit : Option ℤ)
    (hl : PrepareNews.limitTruthy limit = false) :
    ∀ (records : List α) (count : ℕ),
      PrepareNews.writeLoop toDoc limit records count
        = (records.map toDoc, count + records.length) := by
  intro records
  induction records with
  | nil => intro count; simp [PrepareNews.writeLoop]
  | cons raw rest ih =>
    intro count
    have hcond : ¬ (PrepareNews.limitTruthy limit = true ∧
        limit.getD 0 ≤ ((count + 1 : ℕ) : ℤ)) := by
      rintro ⟨h1, -⟩
      rw [hl] at h1
      exact Bool.false_ne_true h1
    simp only [PrepareNews.writeLoop, if_neg hcond, ih (count + 1),
      List.map_cons, List.length_cons, Prod.mk.injEq]
    exact ⟨trivial, by omega⟩

/-- Helper: with a positive limit `k` and fewer than `k` records already
counted, the write loop writes records up to the remaining capacity and
advances the counter by the number written. -/
theorem writeLoop_pos {α β : Type} (toDoc : α → β) (k : ℤ) (hk : 0 < k) :
    ∀ (records : List α) (count : ℕ), (count : ℤ) < k →
      PrepareNews.writeLoop toDoc (some k) records count
        = ((records.map toDoc).take (k.toNat - count),
           count + min (k.toNat - count) records.length) := by
  intro records
  induction records with
  | nil =>
    intro count hc
    simp [PrepareNews.writeLoop]
  | cons raw rest ih =>
    intro count hc
    have hkt : (k.toNat : ℤ) = k := Int.toNat_of_nonneg (le_of_lt hk)
    have htruthy : PrepareNews.limitTruthy (some k) = true := by
      simp only [PrepareNews.limitTruthy, decide_eq_true_eq]
      omega
    by_cases hbreak : k ≤ ((count + 1 : ℕ) : ℤ)
    · have hcap : k.toNat - count = 1 := by omega
      have hcond : PrepareNews.limitTruthy (some k) = true ∧
          (some k).getD 0 ≤ ((count + 1 : ℕ) : ℤ) := ⟨htruthy, by simpa using hbreak⟩
      simp only [PrepareNews.writeLoop, if_pos hcond, hcap]
      simp [List.take_succ_cons]
    · have hcond : ¬ (PrepareNews.limitTruthy (some k) = true ∧
          (some k).getD 0 ≤ ((count + 1 : ℕ) : ℤ)) := by
        rintro ⟨-, h2⟩
        exact hbreak (by simpa using h2)
      have hlt : ((count + 1 : ℕ) : ℤ) < k := by push_cast; omega
      have hrec := ih (count + 1) hlt
      simp only [PrepareNews.writeLoop, if_neg hcond, hrec]
      have hcap : k.toNat - count = (k.toNat - (count + 1)) + 1 := by omega
      rw [hcap, List.map_cons, List.take_succ_cons]
      simp only [List.length_cons, Prod.mk.injEq]
      exact ⟨trivial, by omega⟩

/-- C10: `write_ndjson` treats a falsy limit (`None` or 0) as no limit:
every record is written and the returned count is the total; a positive
limit `k` writes exactly the first `min k total` records and returns that
count. -/
theorem write_ndjson_limit {α β : Type} (toDoc : α → β) (records : List α) :
    PrepareNews.write_ndjson toDoc records none
        = (records.map toDoc, records.length) ∧
      PrepareNews.write_ndjson toDoc records (some 0)
        = (records.map toDoc, records.length) ∧
      ∀ k : ℤ, 0 < k →
        PrepareNews.write_ndjson toDoc records (some k)
          = ((records.map toDoc).take k.toNat,
             min k.toNat records.length) := by
  refine ⟨?_, ?_, ?_⟩
  · simpa using writeLoop_falsy toDoc none rfl records 0
  · simpa using writeLoop_falsy toDoc (some 0) (by simp [PrepareNews.limitTruthy]) records 0
  · intro k hk
    simpa using writeLoop_pos toDoc k hk records 0 (by exact_mod_cast hk)

/-- Witness for `write_ndjson_limit`: a limit of 2 over three records
writes the first two and returns count 2. -/
theorem write_ndjson_limit_witness :
    PrepareNews.write_ndjson (fun n : ℕ => n) [1, 2, 3] (some 2)
      = ([1, 2], 2) := by
  have h := (write_ndjson_limit (fun n : ℕ => n) [1, 2, 3]).2.2 2 (by decide)
  simpa using h
